import Mathlib

/-!
Shallow embedding of `src/bitmapy.py`, a small Windows-BMP reader/writer.

Modelling conventions:
* A binary stream is a `List Nat` of byte values; `fileRead` models Python's
  `file.read(n)` on the buffered binary reader `open(path, 'rb')` returns:
  for `n ≥ 0` it returns up to `n` bytes (fewer at EOF), `n = -1` reads
  everything to EOF, and any other negative `n` raises `ValueError`
  (CPython: read length must be non-negative or -1).
* Python exceptions are modelled by `Except PyErr` (for functions whose only
  effect is the raise) or by a `_ × Option PyErr` result when the function
  mutates state before it can raise (`set_pixel`'s write loop).
* `int.from_bytes(bs, 'little')` is `fromLE`.
* Python `int(a / b)` on non-negative integers of realistic size (< 2^53,
  where float division is exact enough that truncation agrees with floor)
  is Nat division `a / b`; a division whose divisor is `0` raises
  `ZeroDivisionError` in Python, which is modelled explicitly where it can
  occur (`Bitmap.heightE`, `Bitmap.enumerate_pixels`).
* The mutable `bytearray` is a `List Nat` whose elements are `< 256`; item
  assignment with an index past the end raises `IndexError`, with a value
  above 255 raises `ValueError` — both modelled in `writeBytes`.
* `Pixel.__bmp`, Python's mutable back-reference from a `Pixel` to its
  `Bitmap`, is modelled by passing the owning `Bitmap` explicitly to
  `Pixel.update_pixel_data` (explicit state passing).
-/

namespace Bitmapy

/-- Python exception kinds the embedded code can raise. -/
inductive PyErr where
  /-- `KeyError` from `HEADER_MAP[...]` lookup (unregistered DIB tag). -/
  | keyError
  /-- `IndexError` (wrong tuple length in `set_pixel`, or a bytearray
  write past the end of the buffer). -/
  | indexError
  /-- `ValueError` (bytearray item assignment with a value outside 0..255). -/
  | valueError
  /-- `ZeroDivisionError` (division by a zero `bytes_per_pixel` or width). -/
  | zeroDivisionError
deriving DecidableEq, Repr

/-- `int.from_bytes(bs, 'little')`. -/
def fromLE : List Nat → Nat
  | [] => 0
  | b :: bs => b + 256 * fromLE bs

/-- Python `file.read(n)` on a fully-buffered binary stream: for `n ≥ 0`
returns up to `n` bytes (fewer at EOF) and the rest of the stream;
`n = -1` reads everything to EOF; any other negative `n` raises
`ValueError` (CPython's buffered reader rejects read lengths below -1). -/
def fileRead (s : List Nat) (n : Int) : Except PyErr (List Nat × List Nat) :=
  if n < -1 then .error .valueError
  else if n = -1 then .ok (s, [])
  else .ok (s.take n.toNat, s.drop n.toNat)

def HEADER_LENGTH : Nat := 14
def INT_SIZE : Nat := 4
def SHORT_SIZE : Nat := 2
def BITS_PER_BYTE : Nat := 8
def LOC_BMP_SIZE : Nat := 2
def LOC_BMP_START_OFFSET : Nat := 10

def KEY_WIDTH : String := "width"
def KEY_HEIGHT : String := "height"
def KEY_COLOR_PLANE_COUNT : String := "color_plane_count"
def KEY_BITS_PER_PIXEL : String := "bits_per_pixel"
def KEY_COMPRESSION_METHOD : String := "compression_method"
def KEY_RAW_IMG_SIZE : String := "raw_img_size"
def KEY_HORIZONTAL_RESOLUTION : String := "horizontal_resolution"
def KEY_VERTICAL_RESOLUTION : String := "vertical_resolution"
def KEY_COLOR_PALETTE_COUNT : String := "color_palette_count"
def KEY_IMPORTANT_COLOR_COUNT : String := "important_color_count"

/-- `HEADER_MAP[tag][key]`: the `(offset, byte_count)` field table, with
`none` standing for the `KeyError` Python raises on a missing key.  Only
tag 40 (`BITMAPINFOHEADER`) is registered. -/
def headerMapLookup (tag : Nat) (key : String) : Option (Nat × Nat) :=
  if tag = 40 then
    if key = KEY_WIDTH then some (0, INT_SIZE)
    else if key = KEY_HEIGHT then some (4, INT_SIZE)
    else if key = KEY_COLOR_PLANE_COUNT then some (8, SHORT_SIZE)
    else if key = KEY_BITS_PER_PIXEL then some (10, SHORT_SIZE)
    else if key = KEY_COMPRESSION_METHOD then some (12, INT_SIZE)
    else if key = KEY_RAW_IMG_SIZE then some (16, INT_SIZE)
    else if key = KEY_HORIZONTAL_RESOLUTION then some (20, INT_SIZE)
    else if key = KEY_VERTICAL_RESOLUTION then some (24, INT_SIZE)
    else if key = KEY_COLOR_PALETTE_COUNT then some (28, INT_SIZE)
    else if key = KEY_IMPORTANT_COLOR_COUNT then some (32, INT_SIZE)
    else none
  else none

/-- The fields a `BitmapHeaderInfo` instance holds after `__init__`. -/
structure BitmapHeaderInfo where
  header : List Nat
  bmpSize : Nat
  bmpStartOffset : Nat
  dib_header_len_bytes : List Nat
  dib_header_type : Nat
  dib_header : List Nat
  bits_per_pixel : Nat
  other_headers : List Nat
deriving DecidableEq, Repr

/-- `BitmapHeaderInfo.__init__(file)`: consumes the stream, returning the
constructed header object and the unread rest of the stream.  Failure
points, in source order: the DIB-body `read(dib_header_len - 4)` raises
`ValueError` when its count is below -1 (it reads to EOF at exactly -1);
the `HEADER_MAP[self.__dib_header_type]` lookup used to decode
`bits_per_pixel` raises `KeyError` for any tag other than 40; the
trailing-blob `read` (skipped when the count is exactly 0) again raises
`ValueError` for counts below -1.  A `read` with a non-negative count
simply returns fewer bytes at EOF, exactly as Python's does. -/
def parseHeader (s : List Nat) : Except PyErr (BitmapHeaderInfo × List Nat) :=
  let header := s.take HEADER_LENGTH
  let s1 := s.drop HEADER_LENGTH
  let bmpSize := fromLE ((header.drop LOC_BMP_SIZE).take INT_SIZE)
  let bmpStartOffset := fromLE ((header.drop LOC_BMP_START_OFFSET).take INT_SIZE)
  let dib_header_len_bytes := s1.take INT_SIZE
  let s2 := s1.drop INT_SIZE
  let dib_header_len := fromLE dib_header_len_bytes
  match fileRead s2 ((dib_header_len : Int) - (INT_SIZE : Int)) with
  | .error e => .error e
  | .ok (dib_header, s3) =>
    match headerMapLookup dib_header_len KEY_BITS_PER_PIXEL with
    | none => .error .keyError
    | some (st, bc) =>
      let bits_per_pixel := fromLE ((dib_header.drop st).take bc)
      let trailing : Int := (bmpStartOffset : Int) - ((HEADER_LENGTH : Int) + (dib_header_len : Int))
      match (if trailing = 0 then Except.ok (([] : List Nat), s3) else fileRead s3 trailing) with
      | .error e => .error e
      | .ok (other_headers, s4) =>
        .ok ({ header := header, bmpSize := bmpSize, bmpStartOffset := bmpStartOffset,
               dib_header_len_bytes := dib_header_len_bytes,
               dib_header_type := dib_header_len, dib_header := dib_header,
               bits_per_pixel := bits_per_pixel, other_headers := other_headers }, s4)

/-- `__get_val_from_dib_header(key)`: table lookup then little-endian
decode of a slice of the DIB body; `KeyError` when the tag has no table. -/
def BitmapHeaderInfo.getValFromDibHeader (h : BitmapHeaderInfo) (key : String) :
    Except PyErr Nat :=
  match headerMapLookup h.dib_header_type key with
  | none => .error .keyError
  | some (st, bc) => .ok (fromLE ((h.dib_header.drop st).take bc))

/-- `width()`. -/
def BitmapHeaderInfo.widthE (h : BitmapHeaderInfo) : Except PyErr Nat :=
  h.getValFromDibHeader KEY_WIDTH

/-- `height()` (the DIB field, not the buffer-derived `Bitmap.heightE`). -/
def BitmapHeaderInfo.heightFieldE (h : BitmapHeaderInfo) : Except PyErr Nat :=
  h.getValFromDibHeader KEY_HEIGHT

/-- `bytes_per_pixel()` = `int(self.bits_per_pixel() / 8)`: Python's `int`
of the float quotient, i.e. the truncated (floor) quotient. -/
def BitmapHeaderInfo.bytes_per_pixel (h : BitmapHeaderInfo) : Nat :=
  h.bits_per_pixel / BITS_PER_BYTE

/-- `raw_image_size()`. -/
def BitmapHeaderInfo.raw_image_size (h : BitmapHeaderInfo) : Except PyErr Nat :=
  h.getValFromDibHeader KEY_RAW_IMG_SIZE

/-- `write_header(f)`: the bytes written, in order, with no re-encoding. -/
def BitmapHeaderInfo.write_header (h : BitmapHeaderInfo) : List Nat :=
  h.header ++ h.dib_header_len_bytes ++ h.dib_header ++ h.other_headers

/-- A `Pixel` value: stored coordinates and the snapshot `__pixel_data`
tuple.  The `__bmp` back-reference is modelled by passing the owning
`Bitmap` explicitly to `update_pixel_data`. -/
structure Pixel where
  x : Nat
  y : Nat
  pixel_data : List Nat
deriving DecidableEq, Repr

/-- `position()`. -/
def Pixel.position (p : Pixel) : Nat × Nat := (p.x, p.y)

/-- A `Bitmap`: its `__bitmap_info` header object and the mutable
`__bytes` pixel bytearray. -/
structure Bitmap where
  bitmap_info : BitmapHeaderInfo
  bytes : List Nat
deriving DecidableEq, Repr

/-- `Bitmap.__init__`: parse the header from the stream, then capture all
remaining bytes as the pixel buffer. -/
def parseBitmap (s : List Nat) : Except PyErr Bitmap :=
  match parseHeader s with
  | .error e => .error e
  | .ok (info, rest) => .ok { bitmap_info := info, bytes := rest }

/-- `width()` on `Bitmap` delegates to the header. -/
def Bitmap.widthE (b : Bitmap) : Except PyErr Nat :=
  b.bitmap_info.widthE

/-- `height()` = `int((len(self.__bytes) / bytes_per_pixel) / width)`,
derived from the buffer length.  Python evaluates `len / bpp` first
(raising `ZeroDivisionError` when `bpp = 0`), then looks up `width`
(`KeyError` on an unregistered tag), then divides (raising when width
is 0) and truncates. -/
def Bitmap.heightE (b : Bitmap) : Except PyErr Nat :=
  let bpp := b.bitmap_info.bytes_per_pixel
  if bpp = 0 then .error .zeroDivisionError
  else
    match b.bitmap_info.widthE with
    | .error e => .error e
    | .ok w =>
      if w = 0 then .error .zeroDivisionError
      else .ok (b.bytes.length / bpp / w)

/-- `get_pixel(x, y)`: computes the linear offset
`(x + y*width) * bytes_per_pixel` and slices — Python slicing never
raises, so the only possible failure is the `width()` lookup; the slice
is clipped at the end of the buffer. -/
def Bitmap.get_pixel (b : Bitmap) (x y : Nat) : Except PyErr Pixel :=
  let bpp := b.bitmap_info.bytes_per_pixel
  match b.bitmap_info.widthE with
  | .error e => .error e
  | .ok w =>
    let start := (x + y * w) * bpp
    .ok { x := x, y := y, pixel_data := (b.bytes.drop start).take bpp }

/-- The `for i in range(bytes_per_pixel): self.__bytes[start+i] = pixel[i]`
loop of `set_pixel`, one bytearray item assignment at a time: an index at
or past the end raises `IndexError`, a value above 255 raises `ValueError`,
and either abort leaves the bytes already written in place. -/
def writeBytes (buf : List Nat) (pos : Nat) (vals : List Nat) :
    List Nat × Option PyErr :=
  match vals with
  | [] => (buf, none)
  | v :: vs =>
    if pos < buf.length then
      if v ≤ 255 then writeBytes (buf.set pos v) (pos + 1) vs
      else (buf, some .valueError)
    else (buf, some .indexError)

/-- `set_pixel(x, y, pixel)`: checks `len(pixel) == bytes_per_pixel` first
(raising `IndexError` otherwise, before anything is written), then computes
the linear offset (the `width()` lookup can raise `KeyError`), then runs
the write loop.  Returns the bitmap as left by the call together with the
exception, if any, that the call raised. -/
def Bitmap.set_pixel (b : Bitmap) (x y : Nat) (vals : List Nat) :
    Bitmap × Option PyErr :=
  let bpp := b.bitmap_info.bytes_per_pixel
  if vals.length ≠ bpp then (b, some .indexError)
  else
    match b.bitmap_info.widthE with
    | .error e => (b, some e)
    | .ok w =>
      let start := (x + y * w) * bpp
      let r := writeBytes b.bytes start vals
      ({ b with bytes := r.1 }, r.2)

/-- `Pixel.update_pixel_data(pixel_tuple)`: writes through to the owning
bitmap via `set_pixel` at the pixel's stored coordinates; the owning
bitmap is the explicit `b` argument (Python's `self.__bmp`). -/
def Pixel.update_pixel_data (p : Pixel) (b : Bitmap) (vals : List Nat) :
    Bitmap × Option PyErr :=
  b.set_pixel p.x p.y vals

/-- `save_as(filename)`: the bytes written to the output file —
`write_header` followed by the pixel buffer verbatim. -/
def Bitmap.save_as (b : Bitmap) : List Nat :=
  b.bitmap_info.write_header ++ b.bytes

/-- Sequentially realise the generator's `yield self.get_pixel(...)` calls
for a list of linear indices, stopping at the first raised exception. -/
def yieldPixels (f : Nat → Except PyErr Pixel) : List Nat → Except PyErr (List Pixel)
  | [] => Except.ok []
  | i :: is =>
    match f i, yieldPixels f is with
    | .ok p, .ok ps => .ok (p :: ps)
    | .error e, _ => .error e
    | .ok _, .error e => .error e

/-- `enumerate_pixels()`, run to exhaustion: `pixel_count = int(len / bpp)`
(`ZeroDivisionError` when `bpp = 0`), `bmp_width = width()` (`KeyError` on
an unregistered tag), then one `get_pixel(i % width, int(i / width))` per
linear index.  When `width = 0` the first yielded element's `i % width`
raises `ZeroDivisionError` — which only happens if there is an element. -/
def Bitmap.enumerate_pixels (b : Bitmap) : Except PyErr (List Pixel) :=
  let bpp := b.bitmap_info.bytes_per_pixel
  if bpp = 0 then .error .zeroDivisionError
  else
    let pixel_count := b.bytes.length / bpp
    match b.bitmap_info.widthE with
    | .error e => .error e
    | .ok w =>
      if pixel_count ≠ 0 ∧ w = 0 then .error .zeroDivisionError
      else yieldPixels (fun i => b.get_pixel (i % w) (i / w)) (List.range pixel_count)

/-! Stream-level views of the quantities `parseHeader` decodes, used to
state theorems about parsing without re-running it. -/

/-- The DIB header length/type tag as decoded from a raw stream. -/
def dibLenOf (s : List Nat) : Nat := fromLE ((s.drop HEADER_LENGTH).take INT_SIZE)

/-- The `pixelArrayOffset` field as decoded from a raw stream. -/
def startOffsetOf (s : List Nat) : Nat :=
  fromLE (((s.take HEADER_LENGTH).drop LOC_BMP_START_OFFSET).take INT_SIZE)

/-- The stream as it stands after the file header, the DIB length field and
the DIB body (`dibHeaderLength - 4` bytes, non-negative for the registered
tag 40) have been consumed — the read position just before the
trailing-blob read. -/
def afterDibStream (s : List Nat) : List Nat :=
  ((s.drop HEADER_LENGTH).drop INT_SIZE).drop
    ((dibLenOf s : Int) - (INT_SIZE : Int)).toNat

/-! Concrete sample files used by witnesses and counterexamples: a 2×2,
24-bit-per-pixel BMP (`sampleBytes`), the same image with a
non-multiple-of-8 colour depth (`bits12Bytes`), and the same image with a
`pixelArrayOffset` smaller than `14 + dibHeaderLength`: offset 53 gives a
trailing length of exactly -1 (`negOneBytes`), offset 50 gives -4
(`negTrailBytes`). -/

def sampleFileHeader : List Nat :=
  [66, 77, 66, 0, 0, 0, 0, 0, 0, 0, 54, 0, 0, 0]

def sampleDibBody : List Nat :=
  [2, 0, 0, 0, 2, 0, 0, 0, 1, 0, 24, 0, 0, 0, 0, 0, 12, 0, 0, 0,
   0, 0, 0, 0, 0, 0, 0, 0, 0, 0, 0, 0, 0, 0, 0, 0]

def samplePixels : List Nat :=
  [10, 11, 12, 20, 21, 22, 30, 31, 32, 40, 41, 42]

def sampleBytes : List Nat :=
  sampleFileHeader ++ [40, 0, 0, 0] ++ sampleDibBody ++ samplePixels

def sampleInfo : BitmapHeaderInfo :=
  { header := sampleFileHeader, bmpSize := 66, bmpStartOffset := 54,
    dib_header_len_bytes := [40, 0, 0, 0], dib_header_type := 40,
    dib_header := sampleDibBody, bits_per_pixel := 24, other_headers := [] }

def sampleBmp : Bitmap :=
  { bitmap_info := sampleInfo, bytes := samplePixels }

def dib12Body : List Nat :=
  [2, 0, 0, 0, 2, 0, 0, 0, 1, 0, 12, 0, 0, 0, 0, 0, 12, 0, 0, 0,
   0, 0, 0, 0, 0, 0, 0, 0, 0, 0, 0, 0, 0, 0, 0, 0]

def bits12Bytes : List Nat :=
  sampleFileHeader ++ [40, 0, 0, 0] ++ dib12Body ++ samplePixels

def bits12Info : BitmapHeaderInfo :=
  { header := sampleFileHeader, bmpSize := 66, bmpStartOffset := 54,
    dib_header_len_bytes := [40, 0, 0, 0], dib_header_type := 40,
    dib_header := dib12Body, bits_per_pixel := 12, other_headers := [] }

def negTrailFileHeader : List Nat :=
  [66, 77, 66, 0, 0, 0, 0, 0, 0, 0, 50, 0, 0, 0]

def negTrailBytes : List Nat :=
  negTrailFileHeader ++ [40, 0, 0, 0] ++ sampleDibBody ++ samplePixels

def negOneFileHeader : List Nat :=
  [66, 77, 66, 0, 0, 0, 0, 0, 0, 0, 53, 0, 0, 0]

def negOneBytes : List Nat :=
  negOneFileHeader ++ [40, 0, 0, 0] ++ sampleDibBody ++ samplePixels

def negOneInfo : BitmapHeaderInfo :=
  { header := negOneFileHeader, bmpSize := 66, bmpStartOffset := 53,
    dib_header_len_bytes := [40, 0, 0, 0], dib_header_type := 40,
    dib_header := sampleDibBody, bits_per_pixel := 24,
    other_headers := samplePixels }

/-- The pixel buffer of `sampleBmp` after `set_pixel(1, 0, (7, 8, 9))`,
used by the frame-property witness. -/
def sampleBmpSet : Bitmap :=
  { bitmap_info := sampleInfo,
    bytes := [10, 11, 12, 7, 8, 9, 30, 31, 32, 40, 41, 42] }

/-- The pixel value `get_pixel` returns when the header's width decodes
to `w` (see `get_pixel_eq`). -/
def pixelAt (B : Bitmap) (w x y : Nat) : Pixel :=
  { x := x, y := y,
    pixel_data := (B.bytes.drop ((x + y * w) * B.bitmap_info.bytes_per_pixel)).take
      B.bitmap_info.bytes_per_pixel }

end Bitmapy
namespace Bitmapy

lemma fileRead_nonneg (u : List Nat) (n : Int) (hn : 0 ≤ n) :
    fileRead u n = Except.ok (u.take n.toNat, u.drop n.toNat) := by
  unfold fileRead
  rw [if_neg (by omega), if_neg (by omega)]

lemma fileRead_lt_neg_one (u : List Nat) (n : Int) (hn : n < -1) :
    fileRead u n = Except.error PyErr.valueError := by
  unfold fileRead
  rw [if_pos hn]

lemma fileRead_ok_append (s : List Nat) (n : Int) (a b : List Nat)
    (h : fileRead s n = Except.ok (a, b)) : a ++ b = s := by
  unfold fileRead at h
  split at h
  · exact absurd h (by simp)
  · split at h
    · rw [Except.ok.injEq, Prod.mk.injEq] at h
      obtain ⟨h1, h2⟩ := h
      subst h1
      subst h2
      simp
    · rw [Except.ok.injEq, Prod.mk.injEq] at h
      obtain ⟨h1, h2⟩ := h
      subst h1
      subst h2
      exact List.take_append_drop _ s

lemma parseHeader_reassemble (s : List Nat) (h : BitmapHeaderInfo) (r : List Nat)
    (hok : parseHeader s = Except.ok (h, r)) :
    h.header ++ h.dib_header_len_bytes ++ h.dib_header ++ h.other_headers ++ r = s := by
  simp only [parseHeader] at hok
  split at hok
  · exact absurd hok (by simp)
  · rename_i heq3
    split at hok
    · exact absurd hok (by simp)
    · split at hok
      · exact absurd hok (by simp)
      · rename_i heq4
        rw [Except.ok.injEq, Prod.mk.injEq] at hok
        obtain ⟨hh, hr⟩ := hok
        subst hh
        subst hr
        simp only [List.append_assoc]
        have e3 := fileRead_ok_append _ _ _ _ heq3
        split at heq4
        · rw [Except.ok.injEq, Prod.mk.injEq] at heq4
          obtain ⟨h1, h2⟩ := heq4
          subst h1
          subst h2
          rw [List.nil_append, e3, List.take_append_drop, List.take_append_drop]
        · have e4 := fileRead_ok_append _ _ _ _ heq4
          rw [e4, e3, List.take_append_drop, List.take_append_drop]

lemma dibLenOf_eq (s : List Nat) : dibLenOf s = fromLE (List.take INT_SIZE (List.drop HEADER_LENGTH s)) := rfl

lemma startOffsetOf_eq (s : List Nat) : startOffsetOf s =
    fromLE (List.take INT_SIZE (List.drop LOC_BMP_START_OFFSET (List.take HEADER_LENGTH s))) := rfl

lemma parseHeader_tag40_trailing (s : List Nat) (htag : dibLenOf s = 40) :
    ((startOffsetOf s : Int) - ((HEADER_LENGTH : Int) + (dibLenOf s : Int)) = 0 →
      ∃ h r, parseHeader s = Except.ok (h, r) ∧
        h.other_headers = [] ∧ r = afterDibStream s) ∧
    (0 < (startOffsetOf s : Int) - ((HEADER_LENGTH : Int) + (dibLenOf s : Int)) →
      ∃ h r, parseHeader s = Except.ok (h, r) ∧
        h.other_headers = (afterDibStream s).take
          ((startOffsetOf s : Int) - ((HEADER_LENGTH : Int) + (dibLenOf s : Int))).toNat ∧
        r = (afterDibStream s).drop
          ((startOffsetOf s : Int) - ((HEADER_LENGTH : Int) + (dibLenOf s : Int))).toNat) ∧
    ((startOffsetOf s : Int) - ((HEADER_LENGTH : Int) + (dibLenOf s : Int)) = -1 →
      ∃ h r, parseHeader s = Except.ok (h, r) ∧
        h.other_headers = afterDibStream s ∧ r = []) ∧
    ((startOffsetOf s : Int) - ((HEADER_LENGTH : Int) + (dibLenOf s : Int)) < -1 →
      parseHeader s = Except.error PyErr.valueError) := by
  have htagF : fromLE (List.take INT_SIZE (List.drop HEADER_LENGTH s)) = 40 :=
    (dibLenOf_eq s).symm.trans htag
  have h36 : ∀ u : List Nat,
      fileRead u (((40 : Nat) : Int) - (INT_SIZE : Int)) =
        Except.ok (u.take (((40 : Nat) : Int) - (INT_SIZE : Int)).toNat,
          u.drop (((40 : Nat) : Int) - (INT_SIZE : Int)).toNat) :=
    fun u => fileRead_nonneg u _ (by norm_num [INT_SIZE])
  have hlook : headerMapLookup 40 KEY_BITS_PER_PIXEL = some (10, SHORT_SIZE) := rfl
  have hafter : afterDibStream s =
      ((s.drop HEADER_LENGTH).drop INT_SIZE).drop
        (((40 : Nat) : Int) - (INT_SIZE : Int)).toNat := by
    unfold afterDibStream
    rw [htag]
  refine ⟨fun ht => ?_, fun ht => ?_, fun ht => ?_, fun ht => ?_⟩
  all_goals rw [startOffsetOf_eq, htag] at ht
  all_goals simp only [startOffsetOf_eq, htag, hafter, parseHeader, htagF, h36, hlook]
  · rw [if_pos ht]
    exact ⟨_, _, rfl, rfl, rfl⟩
  · rw [if_neg (by omega), fileRead_nonneg _ _ (le_of_lt ht)]
    exact ⟨_, _, rfl, rfl, rfl⟩
  · rw [ht, if_neg (by norm_num)]
    exact ⟨_, _, rfl, rfl, rfl⟩
  · rw [if_neg (by omega), fileRead_lt_neg_one _ _ ht]

lemma parseHeader_isOk_of_tag40 (s : List Nat) (htag : dibLenOf s = 40)
    (htrail : HEADER_LENGTH + dibLenOf s ≤ startOffsetOf s) :
    ∃ h r, parseHeader s = Except.ok (h, r) := by
  obtain ⟨h0, hpos, -, -⟩ := parseHeader_tag40_trailing s htag
  by_cases ht : (startOffsetOf s : Int) - ((HEADER_LENGTH : Int) + (dibLenOf s : Int)) = 0
  · obtain ⟨h, r, hok, -, -⟩ := h0 ht
    exact ⟨h, r, hok⟩
  · obtain ⟨h, r, hok, -, -⟩ := hpos (by omega)
    exact ⟨h, r, hok⟩

lemma save_as_of_parse (s : List Nat) (B : Bitmap)
    (hok : parseBitmap s = Except.ok B) : B.save_as = s := by
  unfold parseBitmap at hok
  split at hok
  · exact absurd hok (by simp)
  · rename_i info rest heq
    rw [Except.ok.injEq] at hok
    subst hok
    have := parseHeader_reassemble s info rest heq
    simpa [Bitmap.save_as, BitmapHeaderInfo.write_header, List.append_assoc] using this

lemma getD_set_ne (l : List Nat) (i j v : Nat) (hij : i ≠ j) (hj : j < l.length) :
    (l.set i v).getD j 0 = l.getD j 0 := by
  rw [List.getD_eq_getElem _ _ (by simpa using hj), List.getD_eq_getElem _ _ hj]
  exact List.getElem_set_ne hij _

lemma getD_set_self (l : List Nat) (i v : Nat) (hi : i < l.length) :
    (l.set i v).getD i 0 = v := by
  rw [List.getD_eq_getElem _ _ (by simpa using hi)]
  exact List.getElem_set_self _

lemma writeBytes_fst_length (vals buf : List Nat) (pos : Nat) :
    (writeBytes buf pos vals).1.length = buf.length := by
  induction vals generalizing buf pos with
  | nil => rfl
  | cons v vs ih =>
    unfold writeBytes
    split
    · split
      · rw [ih]; rw [List.length_set]
      · rfl
    · rfl

lemma writeBytes_none_frame (vals buf buf2 : List Nat) (pos : Nat)
    (hok : writeBytes buf pos vals = (buf2, none)) :
    buf2.length = buf.length ∧
    (∀ j, j < buf.length → j < pos ∨ pos + vals.length ≤ j →
      buf2.getD j 0 = buf.getD j 0) ∧
    (∀ i, i < vals.length → buf2.getD (pos + i) 0 = vals.getD i 0) := by
  induction vals generalizing buf pos with
  | nil =>
    unfold writeBytes at hok
    rw [Prod.mk.injEq] at hok
    obtain ⟨h1, -⟩ := hok
    subst h1
    exact ⟨rfl, fun j _ _ => rfl, fun i hi => absurd hi (by simp)⟩
  | cons v vs ih =>
    unfold writeBytes at hok
    split at hok
    · split at hok
      · rename_i hpos hv
        obtain ⟨hlen, hframe, hcontent⟩ := ih (buf.set pos v) (pos + 1) hok
        rw [List.length_set] at hlen hframe
        refine ⟨hlen, ?_, ?_⟩
        · intro j hj hside
          have hj1 : j < pos ∨ pos + 1 + vs.length ≤ j := by
            rcases hside with h | h
            · exact Or.inl h
            · right; simp at h ⊢; omega
          rw [hframe j hj (by rcases hj1 with h | h; exact Or.inl (by omega); exact Or.inr h)]
          exact getD_set_ne buf pos j v (by rcases hj1 with h | h <;> omega) hj
        · intro i hi
          match i with
          | 0 =>
            have := hframe pos hpos (Or.inl (by omega))
            rw [Nat.add_zero, this, List.getD_cons_zero]
            exact getD_set_self buf pos v hpos
          | Nat.succ k =>
            have := hcontent k (by simp at hi ⊢; omega)
            rw [show pos + (k + 1) = pos + 1 + k by omega, this, List.getD_cons_succ]
      · simp at hok
    · simp at hok

lemma writeBytes_snd_none (vals buf : List Nat) (pos : Nat)
    (hpos : pos + vals.length ≤ buf.length) (hv : ∀ v ∈ vals, v ≤ 255) :
    (writeBytes buf pos vals).2 = none := by
  induction vals generalizing buf pos with
  | nil => rfl
  | cons v vs ih =>
    unfold writeBytes
    rw [if_pos (by simp at hpos; omega), if_pos (hv v (by simp))]
    exact ih (buf.set pos v) (pos + 1)
      (by rw [List.length_set]; simp at hpos; omega)
      (fun u hu => hv u (by simp [hu]))

lemma writeBytes_self (vals buf : List Nat) (pos : Nat)
    (hpt : ∀ i, i < vals.length →
      pos + i < buf.length ∧ vals.getD i 0 = buf.getD (pos + i) 0 ∧
      vals.getD i 0 ≤ 255) :
    writeBytes buf pos vals = (buf, none) := by
  induction vals generalizing buf pos with
  | nil => rfl
  | cons v vs ih =>
    obtain ⟨h0l, h0v, h0b⟩ := hpt 0 (by simp)
    rw [Nat.add_zero] at h0l h0v
    rw [List.getD_cons_zero] at h0v h0b
    have hset : buf.set pos v = buf := by
      apply List.ext_getElem (by rw [List.length_set])
      intro n h1 h2
      rcases eq_or_ne pos n with he | hne
      · subst he
        rw [List.getElem_set_self]
        rw [List.getD_eq_getElem _ _ h2] at h0v
        exact h0v
      · exact List.getElem_set_ne hne _
    unfold writeBytes
    rw [if_pos h0l, if_pos h0b, hset]
    refine ih buf (pos + 1) ?_
    intro i hi
    obtain ⟨ha, hb, hc⟩ := hpt (i + 1) (by simp at hi ⊢; omega)
    rw [List.getD_cons_succ] at hb hc
    exact ⟨by omega, by rw [show pos + 1 + i = pos + (i + 1) by omega]; exact hb, hc⟩

lemma slice_length (l : List Nat) (s n : Nat) (hin : s + n ≤ l.length) :
    ((l.drop s).take n).length = n := by
  rw [List.length_take, List.length_drop]; omega

lemma slice_getD (l : List Nat) (s n i : Nat) (hi : i < n) (hin : s + n ≤ l.length) :
    ((l.drop s).take n).getD i 0 = l.getD (s + i) 0 := by
  have h1 : i < ((l.drop s).take n).length := by rw [slice_length l s n hin]; exact hi
  rw [List.getD_eq_getElem _ _ h1, List.getD_eq_getElem _ _ (by omega)]
  rw [List.getElem_take, List.getElem_drop]

lemma slice_eq_of_pointwise (l vals : List Nat) (s n : Nat)
    (hn : vals.length = n) (hin : s + n ≤ l.length)
    (hpt : ∀ i, i < n → l.getD (s + i) 0 = vals.getD i 0) :
    (l.drop s).take n = vals := by
  apply List.ext_getElem (by rw [slice_length l s n hin, hn])
  intro i h1 h2
  have hi : i < n := by rwa [slice_length l s n hin] at h1
  have hp := hpt i hi
  rw [List.getD_eq_getElem _ _ (by omega), List.getD_eq_getElem _ _ h2] at hp
  rw [List.getElem_take, List.getElem_drop]
  exact hp

lemma slice_mem_le (l : List Nat) (s n : Nat) (hall : ∀ v ∈ l, v ≤ 255) :
    ∀ v ∈ (l.drop s).take n, v ≤ 255 :=
  fun v hv => hall v (List.drop_subset s l (List.take_subset n (l.drop s) hv))

lemma get_pixel_eq (B : Bitmap) (w x y : Nat)
    (hw : B.bitmap_info.widthE = Except.ok w) :
    B.get_pixel x y = Except.ok
      { x := x, y := y,
        pixel_data := (B.bytes.drop ((x + y * w) * B.bitmap_info.bytes_per_pixel)).take
          B.bitmap_info.bytes_per_pixel } := by
  unfold Bitmap.get_pixel
  rw [hw]

lemma set_pixel_eq (B : Bitmap) (w x y : Nat) (vals : List Nat)
    (hw : B.bitmap_info.widthE = Except.ok w)
    (hlen : vals.length = B.bitmap_info.bytes_per_pixel) :
    B.set_pixel x y vals =
      ({ B with bytes :=
          (writeBytes B.bytes ((x + y * w) * B.bitmap_info.bytes_per_pixel) vals).1 },
        (writeBytes B.bytes ((x + y * w) * B.bitmap_info.bytes_per_pixel) vals).2) := by
  unfold Bitmap.set_pixel
  rw [if_neg (by simp [hlen]), hw]

lemma heightE_spec (B : Bitmap) (w hgt : Nat)
    (hw : B.bitmap_info.widthE = Except.ok w)
    (hok : B.heightE = Except.ok hgt) :
    0 < B.bitmap_info.bytes_per_pixel ∧ 0 < w ∧
    hgt = B.bytes.length / B.bitmap_info.bytes_per_pixel / w := by
  simp only [Bitmap.heightE, hw] at hok
  split at hok
  · exact absurd hok (by simp)
  · split at hok
    · exact absurd hok (by simp)
    · rename_i hbpp hwz
      rw [Except.ok.injEq] at hok
      exact ⟨Nat.pos_of_ne_zero hbpp, Nat.pos_of_ne_zero hwz, hok.symm⟩

lemma offset_in_bounds (len bpp w hgt x y : Nat)
    (hmul : bpp ∣ len) (hgt_eq : hgt = len / bpp / w)
    (hx : x < w) (hy : y < hgt) :
    (x + y * w) * bpp + bpp ≤ len := by
  have h1 : x + y * w + 1 ≤ w * (y + 1) := by
    have hxw : x + 1 ≤ w := hx
    calc x + y * w + 1 = (x + 1) + y * w := by ring
    _ ≤ w + y * w := by omega
    _ = w * (y + 1) := by ring
  have h2 : w * (y + 1) ≤ w * hgt := Nat.mul_le_mul (le_refl w) hy
  have h3 : w * hgt ≤ len / bpp := by
    rw [hgt_eq]
    exact Nat.mul_div_le (len / bpp) w
  have h4 : (x + y * w + 1) * bpp ≤ (len / bpp) * bpp :=
    Nat.mul_le_mul (by omega) (le_refl bpp)
  rw [Nat.div_mul_cancel hmul] at h4
  calc (x + y * w) * bpp + bpp = (x + y * w + 1) * bpp := by ring
  _ ≤ len := h4

lemma yieldPixels_map (f : Nat → Except PyErr Pixel) (g : Nat → Pixel) (l : List Nat)
    (hf : ∀ i ∈ l, f i = Except.ok (g i)) :
    yieldPixels f l = Except.ok (l.map g) := by
  induction l with
  | nil => rfl
  | cons i is ih =>
    unfold yieldPixels
    rw [hf i (by simp), ih (fun j hj => hf j (by simp [hj]))]
    rfl

/-- Claim C1: for every well-formed BMP stream (a 14-byte file header is
available, the DIB tag is the registered value 40, and the trailing-blob
length `pixelArrayOffset - (14 + dibHeaderLength)` is non-negative),
constructing a `Bitmap` and immediately saving it reproduces the input
byte-for-byte: the saved stream is `fileHeaderBytes ++ dibHeaderLengthBytes
++ dibHeaderBody ++ trailingHeaderBytes ++ pixelBytes` with no field
re-encoding. -/
theorem load_save_roundtrip (s : List Nat)
    (_hhdr : HEADER_LENGTH ≤ s.length)
    (htag : dibLenOf s = 40)
    (htrail : HEADER_LENGTH + dibLenOf s ≤ startOffsetOf s) :
    ∃ B, parseBitmap s = Except.ok B ∧
      B.save_as = B.bitmap_info.header ++ B.bitmap_info.dib_header_len_bytes ++
        B.bitmap_info.dib_header ++ B.bitmap_info.other_headers ++ B.bytes ∧
      B.save_as = s := by
  obtain ⟨h, r, hok⟩ := parseHeader_isOk_of_tag40 s htag htrail
  have hokB : parseBitmap s = Except.ok { bitmap_info := h, bytes := r } := by
    unfold parseBitmap
    rw [hok]
  refine ⟨{ bitmap_info := h, bytes := r }, hokB, ?_, save_as_of_parse s _ hokB⟩
  simp [Bitmap.save_as, BitmapHeaderInfo.write_header, List.append_assoc]

/-- Witness for C1 at the concrete 2×2 24-bit sample file. -/
theorem load_save_roundtrip_witness :
    ∃ B, parseBitmap sampleBytes = Except.ok B ∧
      B.save_as = B.bitmap_info.header ++ B.bitmap_info.dib_header_len_bytes ++
        B.bitmap_info.dib_header ++ B.bitmap_info.other_headers ++ B.bytes ∧
      B.save_as = sampleBytes :=
  load_save_roundtrip sampleBytes (by decide) (by decide) (by decide)

/-- Counterexample to claim C2 as stated: on the sample bitmap (width 2),
`get_pixel(width(), 0)` does not fail with any error at all — it returns a
`Pixel` whose data is the third stored pixel, i.e. the same bytes as
`get_pixel(0, 1)`. -/
theorem get_pixel_oob_succeeds_cex :
    parseBitmap sampleBytes = Except.ok sampleBmp ∧
    sampleBmp.bitmap_info.widthE = Except.ok 2 ∧
    sampleBmp.get_pixel 2 0 =
      Except.ok { x := 2, y := 0, pixel_data := [30, 31, 32] } ∧
    sampleBmp.get_pixel 0 1 =
      Except.ok { x := 0, y := 1, pixel_data := [30, 31, 32] } :=
  ⟨rfl, rfl, rfl, rfl⟩

/-- Claim C2 (amended): `get_pixel` never fails on any coordinate pair —
there is no bounds check at all.  For every (x, y), in range or not, it
returns a `Pixel` positioned at (x, y) whose data is the buffer slice at
linear offset `(x + y*width) * bytesPerPixel`, clipped (possibly to fewer
than `bytesPerPixel` bytes, or none) at the end of the buffer. -/
theorem get_pixel_never_fails (B : Bitmap) (w x y : Nat)
    (hw : B.bitmap_info.widthE = Except.ok w) :
    ∃ p, B.get_pixel x y = Except.ok p ∧ p.position = (x, y) ∧
      p.pixel_data = (B.bytes.drop ((x + y * w) * B.bitmap_info.bytes_per_pixel)).take
        B.bitmap_info.bytes_per_pixel :=
  ⟨_, get_pixel_eq B w x y hw, rfl, rfl⟩

/-- Witness for the amended C2: `get_pixel(5, 7)` on the 2×2 sample, far
out of range, still succeeds (with an empty clipped slice). -/
theorem get_pixel_never_fails_witness :
    ∃ p, sampleBmp.get_pixel 5 7 = Except.ok p ∧ p.position = (5, 7) ∧
      p.pixel_data = (sampleBmp.bytes.drop ((5 + 7 * 2) * sampleBmp.bitmap_info.bytes_per_pixel)).take
        sampleBmp.bitmap_info.bytes_per_pixel :=
  get_pixel_never_fails sampleBmp 2 5 7 rfl

/-- Claim C3: `set_pixel` with a channel tuple whose length differs from
`bytes_per_pixel` fails (the `IndexError` the code raises, the spec's
`InvalidPixelFormat`) and returns the bitmap with its buffer untouched:
the length check runs before any byte is written. -/
theorem set_pixel_bad_arity_rejected (B : Bitmap) (x y : Nat) (vals : List Nat)
    (hlen : vals.length ≠ B.bitmap_info.bytes_per_pixel) :
    B.set_pixel x y vals = (B, some PyErr.indexError) := by
  unfold Bitmap.set_pixel
  rw [if_pos hlen]

/-- Witness for C3: a 2-byte tuple against the 3-byte-per-pixel sample. -/
theorem set_pixel_bad_arity_rejected_witness :
    sampleBmp.set_pixel 0 0 [1, 2] = (sampleBmp, some PyErr.indexError) :=
  set_pixel_bad_arity_rejected sampleBmp 0 0 [1, 2] (by decide)

/-- Counterexample to claim C6 as stated: parsing a header declaring 12
bits per pixel (not divisible by 8) does not fail with any error;
`bytes_per_pixel()` returns the truncated quotient 1. -/
theorem bytes_per_pixel_truncates_cex :
    parseHeader bits12Bytes = Except.ok (bits12Info, samplePixels) ∧
    bits12Info.bits_per_pixel = 12 ∧
    ¬ (8 ∣ bits12Info.bits_per_pixel) ∧
    bits12Info.bytes_per_pixel = 1 :=
  ⟨rfl, rfl, by decide, rfl⟩

/-- Claim C6 (amended): for every parsed header, `bytes_per_pixel()` is the
truncated quotient `int(bitsPerPixel / 8)` — it never fails, agrees with
the exact quotient when 8 divides `bitsPerPixel`, and silently rounds down
otherwise. -/
theorem bytes_per_pixel_floor (s : List Nat) (h : BitmapHeaderInfo) (r : List Nat)
    (_hok : parseHeader s = Except.ok (h, r)) :
    BITS_PER_BYTE * h.bytes_per_pixel ≤ h.bits_per_pixel ∧
    h.bits_per_pixel < BITS_PER_BYTE * h.bytes_per_pixel + BITS_PER_BYTE ∧
    (BITS_PER_BYTE ∣ h.bits_per_pixel →
      BITS_PER_BYTE * h.bytes_per_pixel = h.bits_per_pixel) := by
  simp only [BitmapHeaderInfo.bytes_per_pixel, BITS_PER_BYTE]
  omega

/-- Witness for the amended C6 at the 12-bit sample header. -/
theorem bytes_per_pixel_floor_witness :
    BITS_PER_BYTE * bits12Info.bytes_per_pixel ≤ bits12Info.bits_per_pixel ∧
    bits12Info.bits_per_pixel < BITS_PER_BYTE * bits12Info.bytes_per_pixel + BITS_PER_BYTE ∧
    (BITS_PER_BYTE ∣ bits12Info.bits_per_pixel →
      BITS_PER_BYTE * bits12Info.bytes_per_pixel = bits12Info.bits_per_pixel) :=
  bytes_per_pixel_floor bits12Bytes bits12Info samplePixels rfl

/-- Counterexample to claim C7 as stated: a file whose `pixelArrayOffset`
is 53 while `14 + dibHeaderLength = 54` (trailing length −1) is parsed
without any error; instead of failing with `CorruptHeader`, the parser's
`file.read(-1)` silently consumes every remaining byte into
`trailingHeaderBytes`, leaving nothing for the pixel buffer.  (At trailing
length −4 parsing does fail, but with the `ValueError` that `file.read`
raises for a negative length below −1 — not a `CorruptHeader` check.) -/
theorem trailing_negative_one_succeeds_cex :
    parseHeader negOneBytes = Except.ok (negOneInfo, []) ∧
    (negOneInfo.bmpStartOffset : Int) -
      ((HEADER_LENGTH : Int) + (fromLE negOneInfo.dib_header_len_bytes : Int)) = -1 ∧
    negOneInfo.other_headers = samplePixels ∧
    parseHeader negTrailBytes = Except.error PyErr.valueError :=
  ⟨rfl, by decide, rfl, rfl⟩

/-- Claim C7 (amended): with `trailing = pixelArrayOffset -
(14 + dibHeaderLength)`, for a tag-40 header: if `trailing` is zero the
blob is empty; if positive, `trailing` bytes are read into
`trailingHeaderBytes` (fewer only if the stream ends first); if `trailing`
is exactly −1, parsing does not fail — `file.read(-1)` reads to EOF,
consuming the whole remaining stream into `trailingHeaderBytes` and
leaving no bytes for the pixel buffer; if `trailing` is below −1, parsing
fails, but with the `ValueError` raised by `file.read` for a negative
length, not a deliberate `CorruptHeader` check. -/
theorem trailing_blob_cases (s : List Nat) (htag : dibLenOf s = 40) :
    ((startOffsetOf s : Int) - ((HEADER_LENGTH : Int) + (dibLenOf s : Int)) = 0 →
      ∃ h r, parseHeader s = Except.ok (h, r) ∧
        h.other_headers = [] ∧ r = afterDibStream s) ∧
    (0 < (startOffsetOf s : Int) - ((HEADER_LENGTH : Int) + (dibLenOf s : Int)) →
      ∃ h r, parseHeader s = Except.ok (h, r) ∧
        h.other_headers = (afterDibStream s).take
          ((startOffsetOf s : Int) - ((HEADER_LENGTH : Int) + (dibLenOf s : Int))).toNat ∧
        r = (afterDibStream s).drop
          ((startOffsetOf s : Int) - ((HEADER_LENGTH : Int) + (dibLenOf s : Int))).toNat) ∧
    ((startOffsetOf s : Int) - ((HEADER_LENGTH : Int) + (dibLenOf s : Int)) = -1 →
      ∃ h r, parseHeader s = Except.ok (h, r) ∧
        h.other_headers = afterDibStream s ∧ r = []) ∧
    ((startOffsetOf s : Int) - ((HEADER_LENGTH : Int) + (dibLenOf s : Int)) < -1 →
      parseHeader s = Except.error PyErr.valueError) :=
  parseHeader_tag40_trailing s htag

/-- Witness for the amended C7 at the trailing-length −4 sample, whose
parse ends in the `ValueError` branch. -/
theorem trailing_blob_cases_witness :
    ((startOffsetOf negTrailBytes : Int) -
        ((HEADER_LENGTH : Int) + (dibLenOf negTrailBytes : Int)) = 0 →
      ∃ h r, parseHeader negTrailBytes = Except.ok (h, r) ∧
        h.other_headers = [] ∧ r = afterDibStream negTrailBytes) ∧
    (0 < (startOffsetOf negTrailBytes : Int) -
        ((HEADER_LENGTH : Int) + (dibLenOf negTrailBytes : Int)) →
      ∃ h r, parseHeader negTrailBytes = Except.ok (h, r) ∧
        h.other_headers = (afterDibStream negTrailBytes).take
          ((startOffsetOf negTrailBytes : Int) -
            ((HEADER_LENGTH : Int) + (dibLenOf negTrailBytes : Int))).toNat ∧
        r = (afterDibStream negTrailBytes).drop
          ((startOffsetOf negTrailBytes : Int) -
            ((HEADER_LENGTH : Int) + (dibLenOf negTrailBytes : Int))).toNat) ∧
    ((startOffsetOf negTrailBytes : Int) -
        ((HEADER_LENGTH : Int) + (dibLenOf negTrailBytes : Int)) = -1 →
      ∃ h r, parseHeader negTrailBytes = Except.ok (h, r) ∧
        h.other_headers = afterDibStream negTrailBytes ∧ r = []) ∧
    ((startOffsetOf negTrailBytes : Int) -
        ((HEADER_LENGTH : Int) + (dibLenOf negTrailBytes : Int)) < -1 →
      parseHeader negTrailBytes = Except.error PyErr.valueError) :=
  trailing_blob_cases negTrailBytes (by decide)

lemma getD_le_of_all (l : List Nat) (i : Nat) (hi : i < l.length)
    (hall : ∀ v ∈ l, v ≤ 255) : l.getD i 0 ≤ 255 := by
  rw [List.getD_eq_getElem _ _ hi]
  exact hall _ (List.getElem_mem hi)

lemma get_pixel_eq_pixelAt (B : Bitmap) (w x y : Nat)
    (hw : B.bitmap_info.widthE = Except.ok w) :
    B.get_pixel x y = Except.ok (pixelAt B w x y) :=
  get_pixel_eq B w x y hw

lemma get_pixel_mk_eq (info : BitmapHeaderInfo) (bs : List Nat) (w x y : Nat)
    (hw : info.widthE = Except.ok w) :
    Bitmap.get_pixel ⟨info, bs⟩ x y = Except.ok
      { x := x, y := y,
        pixel_data := (bs.drop ((x + y * w) * info.bytes_per_pixel)).take
          info.bytes_per_pixel } :=
  get_pixel_eq ⟨info, bs⟩ w x y hw

lemma enumerate_pixels_eq (B : Bitmap) (w : Nat)
    (hw : B.bitmap_info.widthE = Except.ok w)
    (hbpp : 0 < B.bitmap_info.bytes_per_pixel) (hwpos : 0 < w) :
    B.enumerate_pixels =
      yieldPixels (fun i => B.get_pixel (i % w) (i / w))
        (List.range (B.bytes.length / B.bitmap_info.bytes_per_pixel)) := by
  simp only [Bitmap.enumerate_pixels, hw]
  rw [if_neg (by omega), if_neg (by rintro ⟨-, hz⟩; omega)]

/-- Claim C4: for every in-bounds coordinate pair — `x < width()`,
`y < height()` (so `height()` itself evaluates without error), the buffer
length a multiple of `bytes_per_pixel` — the round trip
`set_pixel(x, y, get_pixel(x, y).pixel_data)` succeeds and leaves the
bitmap (in particular its pixel buffer) byte-for-byte unchanged.  The
hypothesis that every stored byte is ≤ 255 is the `bytearray` value
invariant Python maintains automatically. -/
theorem set_get_pixel_roundtrip (B : Bitmap) (w hgt x y : Nat)
    (hw : B.bitmap_info.widthE = Except.ok w)
    (hh : B.heightE = Except.ok hgt)
    (hx : x < w) (hy : y < hgt)
    (hmul : B.bitmap_info.bytes_per_pixel ∣ B.bytes.length)
    (hbytes : ∀ v ∈ B.bytes, v ≤ 255) :
    ∃ p, B.get_pixel x y = Except.ok p ∧
      B.set_pixel x y p.pixel_data = (B, none) := by
  obtain ⟨hbpp, hwpos, hgteq⟩ := heightE_spec B w hgt hw hh
  have hbound : (x + y * w) * B.bitmap_info.bytes_per_pixel +
      B.bitmap_info.bytes_per_pixel ≤ B.bytes.length :=
    offset_in_bounds B.bytes.length B.bitmap_info.bytes_per_pixel w hgt x y
      hmul hgteq hx hy
  have hslen : ((B.bytes.drop ((x + y * w) * B.bitmap_info.bytes_per_pixel)).take
      B.bitmap_info.bytes_per_pixel).length = B.bitmap_info.bytes_per_pixel :=
    slice_length _ _ _ hbound
  refine ⟨_, get_pixel_eq B w x y hw, ?_⟩
  rw [set_pixel_eq B w x y _ hw hslen]
  have hws : writeBytes B.bytes ((x + y * w) * B.bitmap_info.bytes_per_pixel)
      ((B.bytes.drop ((x + y * w) * B.bitmap_info.bytes_per_pixel)).take
        B.bitmap_info.bytes_per_pixel) = (B.bytes, none) := by
    apply writeBytes_self
    intro i hi
    rw [hslen] at hi
    refine ⟨by omega, slice_getD B.bytes _ _ i hi hbound, ?_⟩
    rw [slice_getD B.bytes _ _ i hi hbound]
    exact getD_le_of_all B.bytes _ (by omega) hbytes
  rw [hws]

/-- Witness for C4 at pixel (1, 1) of the 2×2 sample. -/
theorem set_get_pixel_roundtrip_witness :
    ∃ p, sampleBmp.get_pixel 1 1 = Except.ok p ∧
      sampleBmp.set_pixel 1 1 p.pixel_data = (sampleBmp, none) :=
  set_get_pixel_roundtrip sampleBmp 2 2 1 1 rfl rfl (by decide) (by decide)
    (by decide) (by decide)

/-- Claim C5: when the buffer length is exactly `width() * height() *
bytes_per_pixel`, `enumerate_pixels()` yields exactly `width() * height()`
pixels, in row-major order — the i-th yielded pixel sits at position
`(i % width, i / width)`, so (0,0), (1,0), … wrapping at `width` — and the
yielded positions are pairwise distinct and cover every (x, y) in
`[0, width) × [0, height)`. -/
theorem enumerate_pixels_rowmajor (B : Bitmap) (w hgt : Nat)
    (hw : B.bitmap_info.widthE = Except.ok w)
    (hh : B.heightE = Except.ok hgt)
    (hlen : B.bytes.length = w * hgt * B.bitmap_info.bytes_per_pixel) :
    ∃ ps, B.enumerate_pixels = Except.ok ps ∧
      ps.length = w * hgt ∧
      ps.map Pixel.position = (List.range (w * hgt)).map (fun i => (i % w, i / w)) ∧
      (ps.map Pixel.position).Nodup ∧
      (∀ x y, x < w → y < hgt → (x, y) ∈ ps.map Pixel.position) := by
  obtain ⟨hbpp, hwpos, hgteq⟩ := heightE_spec B w hgt hw hh
  have hcount : B.bytes.length / B.bitmap_info.bytes_per_pixel = w * hgt := by
    rw [hlen]
    exact Nat.mul_div_cancel _ hbpp
  have henum := enumerate_pixels_eq B w hw hbpp hwpos
  rw [hcount] at henum
  have hyield := yieldPixels_map (fun i => B.get_pixel (i % w) (i / w))
    (fun i => pixelAt B w (i % w) (i / w))
    (List.range (w * hgt))
    (fun i _ => get_pixel_eq_pixelAt B w (i % w) (i / w) hw)
  rw [hyield] at henum
  have hpos : ((List.range (w * hgt)).map (fun i => pixelAt B w (i % w) (i / w))).map
      Pixel.position = (List.range (w * hgt)).map (fun i => (i % w, i / w)) := by
    rw [List.map_map]
    rfl
  refine ⟨_, henum, by simp, hpos, ?_, ?_⟩
  · rw [hpos]
    refine List.Nodup.map_on ?_ (List.nodup_range (w * hgt))
    intro i _ j _ hij
    rw [Prod.mk.injEq] at hij
    obtain ⟨h1, h2⟩ := hij
    calc i = i % w + w * (i / w) := (Nat.mod_add_div i w).symm
    _ = j % w + w * (j / w) := by rw [h1, h2]
    _ = j := Nat.mod_add_div j w
  · intro x y hx hy
    rw [hpos, List.mem_map]
    refine ⟨x + w * y, List.mem_range.mpr ?_, ?_⟩
    · calc x + w * y < w + w * y := by omega
      _ = w * (y + 1) := by ring
      _ ≤ w * hgt := Nat.mul_le_mul (le_refl w) hy
    · rw [Nat.add_mul_mod_self_left, Nat.add_mul_div_left x y hwpos,
        Nat.mod_eq_of_lt hx, Nat.div_eq_of_lt hx, Nat.zero_add]

/-- Witness for C5 on the 2×2 sample (buffer length 12 = 2·2·3). -/
theorem enumerate_pixels_rowmajor_witness :
    ∃ ps, sampleBmp.enumerate_pixels = Except.ok ps ∧
      ps.length = 2 * 2 ∧
      ps.map Pixel.position = (List.range (2 * 2)).map (fun i => (i % 2, i / 2)) ∧
      (ps.map Pixel.position).Nodup ∧
      (∀ x y, x < 2 → y < 2 → (x, y) ∈ ps.map Pixel.position) :=
  enumerate_pixels_rowmajor sampleBmp 2 2 rfl rfl (by decide)

/-- Claim C8: for an in-bounds (x, y) and a valid channel tuple `newVals`
(length `bytes_per_pixel`, byte-range values), taking
`p = get_pixel(x, y)` and calling `p.update_pixel_data(newVals)` writes
through to the owning buffer: a fresh `get_pixel(x, y)` on the updated
bitmap returns `newVals`, while `p`'s own `pixel_data` still holds the
pre-mutation snapshot slice. -/
theorem update_pixel_data_write_through (B : Bitmap) (w hgt x y : Nat)
    (newVals : List Nat) (p : Pixel)
    (hw : B.bitmap_info.widthE = Except.ok w)
    (hh : B.heightE = Except.ok hgt)
    (hx : x < w) (hy : y < hgt)
    (hmul : B.bitmap_info.bytes_per_pixel ∣ B.bytes.length)
    (hvlen : newVals.length = B.bitmap_info.bytes_per_pixel)
    (hvval : ∀ v ∈ newVals, v ≤ 255)
    (hp : B.get_pixel x y = Except.ok p) :
    ∃ B2, p.update_pixel_data B newVals = (B2, none) ∧
      B2.get_pixel x y = Except.ok { x := x, y := y, pixel_data := newVals } ∧
      p.pixel_data = (B.bytes.drop ((x + y * w) * B.bitmap_info.bytes_per_pixel)).take
        B.bitmap_info.bytes_per_pixel := by
  obtain ⟨hbpp, hwpos, hgteq⟩ := heightE_spec B w hgt hw hh
  have hbound := offset_in_bounds B.bytes.length B.bitmap_info.bytes_per_pixel
    w hgt x y hmul hgteq hx hy
  rw [get_pixel_eq_pixelAt B w x y hw, Except.ok.injEq] at hp
  subst hp
  have hupd : (pixelAt B w x y).update_pixel_data B newVals =
      B.set_pixel x y newVals := rfl
  rw [hupd, set_pixel_eq B w x y newVals hw hvlen]
  have hnone : (writeBytes B.bytes ((x + y * w) * B.bitmap_info.bytes_per_pixel)
      newVals).2 = none :=
    writeBytes_snd_none newVals B.bytes _ (by rw [hvlen]; exact hbound) hvval
  have hok : writeBytes B.bytes ((x + y * w) * B.bitmap_info.bytes_per_pixel) newVals =
      ((writeBytes B.bytes ((x + y * w) * B.bitmap_info.bytes_per_pixel) newVals).1,
        none) := by
    rw [← hnone]
  obtain ⟨hlen2, hframe, hcontent⟩ := writeBytes_none_frame newVals B.bytes _ _ hok
  refine ⟨_, by rw [hnone], ?_, rfl⟩
  rw [get_pixel_mk_eq B.bitmap_info _ w x y hw]
  refine congrArg Except.ok ?_
  refine congrArg (Pixel.mk x y) ?_
  show ((writeBytes B.bytes ((x + y * w) * B.bitmap_info.bytes_per_pixel)
      newVals).1.drop ((x + y * w) * B.bitmap_info.bytes_per_pixel)).take
      B.bitmap_info.bytes_per_pixel = newVals
  apply slice_eq_of_pointwise _ newVals _ _ hvlen (by rw [hlen2]; exact hbound)
  intro i hi
  exact hcontent i (by rw [hvlen]; exact hi)

/-- Witness for C8: overwrite pixel (0, 1) of the sample with (99, 98, 97). -/
theorem update_pixel_data_write_through_witness :
    ∃ B2, Pixel.update_pixel_data { x := 0, y := 1, pixel_data := [30, 31, 32] }
        sampleBmp [99, 98, 97] = (B2, none) ∧
      B2.get_pixel 0 1 = Except.ok { x := 0, y := 1, pixel_data := [99, 98, 97] } ∧
      ({ x := 0, y := 1, pixel_data := [30, 31, 32] } : Pixel).pixel_data =
        (sampleBmp.bytes.drop ((0 + 1 * 2) * sampleBmp.bitmap_info.bytes_per_pixel)).take
          sampleBmp.bitmap_info.bytes_per_pixel :=
  update_pixel_data_write_through sampleBmp 2 2 0 1 [99, 98, 97]
    { x := 0, y := 1, pixel_data := [30, 31, 32] } rfl rfl (by decide) (by decide)
    (by decide) (by decide) (by decide) rfl

/-- Claim C9 (implicit frame property): a successful
`set_pixel(x, y, vals)` with `len(vals) = bytes_per_pixel` changes only
the `bytes_per_pixel` buffer bytes starting at linear offset
`(x + y*width) * bytes_per_pixel`; every other buffer byte is unchanged,
the whole header object (hence all four captured header byte blocks) is
untouched, and the header bytes later emitted by `save_as` via
`write_header` are identical before and after the mutation. -/
theorem set_pixel_frame (B B2 : Bitmap) (w x y : Nat) (vals : List Nat)
    (hw : B.bitmap_info.widthE = Except.ok w)
    (hvlen : vals.length = B.bitmap_info.bytes_per_pixel)
    (hsucc : B.set_pixel x y vals = (B2, none)) :
    B2.bitmap_info = B.bitmap_info ∧
    B2.bitmap_info.write_header = B.bitmap_info.write_header ∧
    B2.bytes.length = B.bytes.length ∧
    (∀ j, j < B.bytes.length →
      j < (x + y * w) * B.bitmap_info.bytes_per_pixel ∨
        (x + y * w) * B.bitmap_info.bytes_per_pixel + B.bitmap_info.bytes_per_pixel ≤ j →
      B2.bytes.getD j 0 = B.bytes.getD j 0) ∧
    (∀ i, i < B.bitmap_info.bytes_per_pixel →
      B2.bytes.getD ((x + y * w) * B.bitmap_info.bytes_per_pixel + i) 0 =
        vals.getD i 0) := by
  rw [set_pixel_eq B w x y vals hw hvlen, Prod.mk.injEq] at hsucc
  obtain ⟨hB2, hnone⟩ := hsucc
  subst hB2
  have hok : writeBytes B.bytes ((x + y * w) * B.bitmap_info.bytes_per_pixel) vals =
      ((writeBytes B.bytes ((x + y * w) * B.bitmap_info.bytes_per_pixel) vals).1,
        none) := by
    rw [← hnone]
  obtain ⟨hlen2, hframe, hcontent⟩ := writeBytes_none_frame vals B.bytes _ _ hok
  refine ⟨rfl, rfl, hlen2, ?_, ?_⟩
  · intro j hj hside
    refine hframe j hj ?_
    rcases hside with hs | hs
    · exact Or.inl hs
    · exact Or.inr (by rw [hvlen]; exact hs)
  · intro i hi
    exact hcontent i (by rw [hvlen]; exact hi)

/-- Witness for C9: write (7, 8, 9) at pixel (1, 0) of the sample. -/
theorem set_pixel_frame_witness :
    sampleBmpSet.bitmap_info = sampleBmp.bitmap_info ∧
    sampleBmpSet.bitmap_info.write_header = sampleBmp.bitmap_info.write_header ∧
    sampleBmpSet.bytes.length = sampleBmp.bytes.length ∧
    (∀ j, j < sampleBmp.bytes.length →
      j < (1 + 0 * 2) * sampleBmp.bitmap_info.bytes_per_pixel ∨
        (1 + 0 * 2) * sampleBmp.bitmap_info.bytes_per_pixel +
          sampleBmp.bitmap_info.bytes_per_pixel ≤ j →
      sampleBmpSet.bytes.getD j 0 = sampleBmp.bytes.getD j 0) ∧
    (∀ i, i < sampleBmp.bitmap_info.bytes_per_pixel →
      sampleBmpSet.bytes.getD ((1 + 0 * 2) * sampleBmp.bitmap_info.bytes_per_pixel + i) 0 =
        [7, 8, 9].getD i 0) :=
  set_pixel_frame sampleBmp sampleBmpSet 2 1 0 [7, 8, 9] rfl (by decide) rfl

/-- Claim C10 (implicit totality/aliasing): `get_pixel` returns a `Pixel`
for every coordinate pair without raising; its data is the buffer slice at
linear offset `(x + y*width) * bytes_per_pixel`, so `get_pixel(width, 0)`
returns the same bytes as `get_pixel(0, 1)`, and whenever the slice end
passes the buffer end the returned data is shorter than `bytes_per_pixel`
(possibly empty). -/
theorem get_pixel_total_alias (B : Bitmap) (w x y : Nat)
    (hw : B.bitmap_info.widthE = Except.ok w) :
    (∃ p, B.get_pixel x y = Except.ok p ∧
      p.pixel_data = (B.bytes.drop ((x + y * w) * B.bitmap_info.bytes_per_pixel)).take
        B.bitmap_info.bytes_per_pixel ∧
      (B.bytes.length < (x + y * w) * B.bitmap_info.bytes_per_pixel +
          B.bitmap_info.bytes_per_pixel →
        0 < B.bitmap_info.bytes_per_pixel →
        p.pixel_data.length < B.bitmap_info.bytes_per_pixel)) ∧
    ∃ q r, B.get_pixel w 0 = Except.ok q ∧ B.get_pixel 0 1 = Except.ok r ∧
      q.pixel_data = r.pixel_data := by
  refine ⟨⟨_, get_pixel_eq B w x y hw, rfl, ?_⟩,
    ⟨_, _, get_pixel_eq B w w 0 hw, get_pixel_eq B w 0 1 hw, ?_⟩⟩
  · intro hover hbpp
    simp only [List.length_take, List.length_drop]
    omega
  · simp only [Nat.zero_mul, Nat.add_zero, Nat.one_mul, Nat.zero_add]

/-- Witness for C10 at (3, 5) on the 2-wide sample. -/
theorem get_pixel_total_alias_witness :
    (∃ p, sampleBmp.get_pixel 3 5 = Except.ok p ∧
      p.pixel_data = (sampleBmp.bytes.drop ((3 + 5 * 2) * sampleBmp.bitmap_info.bytes_per_pixel)).take
        sampleBmp.bitmap_info.bytes_per_pixel ∧
      (sampleBmp.bytes.length < (3 + 5 * 2) * sampleBmp.bitmap_info.bytes_per_pixel +
          sampleBmp.bitmap_info.bytes_per_pixel →
        0 < sampleBmp.bitmap_info.bytes_per_pixel →
        p.pixel_data.length < sampleBmp.bitmap_info.bytes_per_pixel)) ∧
    ∃ q r, sampleBmp.get_pixel 2 0 = Except.ok q ∧
      sampleBmp.get_pixel 0 1 = Except.ok r ∧ q.pixel_data = r.pixel_data :=
  get_pixel_total_alias sampleBmp 2 3 5 rfl

end Bitmapy
